import Mathlib

/-
Verification of the password/account utility functions of the repository
(openedx/core/djangoapps/user_authn/utils.py and
openedx/core/djangoapps/user_api/accounts/utils.py), as a shallow
embedding in Lean.

Randomness is modelled by explicit streams of natural numbers: a call of
SystemRandom().choice on a sequence of length n consumes one value v from
the stream and selects index v % n, mirroring randbelow(n); random.shuffle
(the module-level Mersenne Twister generator, a source distinct from the
SystemRandom instance) consumes one value per Fisher-Yates step.  External
collaborators (the AUTH_PASSWORD_VALIDATORS setting, the SHA-1 digest, the
Pwned-Passwords range endpoint, the username existence check) are passed in
as explicit parameters, since they live outside the functions under study.
Fallible Python code (raise / IndexError / TypeError) is embedded with
Except String.
-/

namespace EdxUserAuthn

/-- One value from a random stream: head of the list, 0 when exhausted. -/
def rnext : List Nat → Nat × List Nat
  | [] => (0, [])
  | v :: rest => (v, rest)

/-- SystemRandom().choice on a Python list: index randbelow(len) into the
sequence; an empty sequence raises IndexError. -/
def pyChoice (pool : List Char) (s : List Nat) : Except String (Char × List Nat) :=
  match pool with
  | [] => Except.error "IndexError: cannot choose from an empty sequence"
  | c :: rest =>
    Except.ok ((c :: rest).getD ((rnext s).1 % (c :: rest).length) c, (rnext s).2)

/-- Python string.ascii_lowercase. -/
def asciiLowercase : List Char := "abcdefghijklmnopqrstuvwxyz".toList

/-- Python string.ascii_uppercase. -/
def asciiUppercase : List Char := "ABCDEFGHIJKLMNOPQRSTUVWXYZ".toList

/-- Python string.ascii_letters. -/
def asciiLetters : List Char := asciiLowercase ++ asciiUppercase

/-- Python string.digits. -/
def pyDigits : List Char := "0123456789".toList

/-- Python string.punctuation (32 ASCII characters). -/
def pyPunctuation : List Char :=
  ['!', '"', '#', '$', '%', '&', Char.ofNat 39, '(', ')', '*', '+', ',', '-', '.',
   '/', ':', ';', '<', '=', '>', '?', '@', '[', Char.ofNat 92, ']', '^', '_',
   Char.ofNat 96, Char.ofNat 123, '|', Char.ofNat 125, '~']

/-- The non_ascii_characters list of generate_password. -/
def nonAsciiCharacters : List Char :=
  ['£', '¥', '€', '©', '®', '™', '†', '§', '¶', 'π', 'μ', '±']

/-- Default chars argument of generate_password:
string.ascii_letters + string.digits. -/
def defaultChars : List Char := asciiLetters ++ pyDigits

/-- A Python dict with string keys and int values, as an association list
with at most one binding per key (insertion order kept, irrelevant here). -/
abbrev PyDict := List (String × Nat)

/-- dict assignment d[k] = v: replace the existing binding or append. -/
def dictSet : PyDict → String → Nat → PyDict
  | [], k, v => [(k, v)]
  | (k1, v1) :: rest, k, v =>
      if k1 = k then (k, v) :: rest else (k1, v1) :: dictSet rest k v

/-- dict lookup d.get(k): None when absent. -/
def dictGet (d : PyDict) (k : String) : Option Nat := d.lookup k

/-- dict lookup with default d.get(k, v0). -/
def dictGetD (d : PyDict) (k : String) (v0 : Nat) : Nat := (dictGet d k).getD v0

/-- Python truthiness of an optional int (None and 0 are falsy). -/
def optTruthy : Option Nat → Bool
  | none => false
  | some n => n != 0

/-- One entry of the AUTH_PASSWORD_VALIDATORS setting: the NAME of the
validator class and its OPTIONS dict. -/
structure ValidatorEntry where
  NAME : String
  OPTIONS : PyDict

/-- The known_validators mapping of password_complexity: validator class
path to rule name. -/
def knownValidatorsTable : List (String × String) :=
  [("common.djangoapps.util.password_policy_validators.MinimumLengthValidator", "min_length"),
   ("common.djangoapps.util.password_policy_validators.MaximumLengthValidator", "max_length"),
   ("common.djangoapps.util.password_policy_validators.AlphabeticValidator", "min_alphabetic"),
   ("common.djangoapps.util.password_policy_validators.UppercaseValidator", "min_upper"),
   ("common.djangoapps.util.password_policy_validators.LowercaseValidator", "min_lower"),
   ("common.djangoapps.util.password_policy_validators.NumericValidator", "min_numeric"),
   ("common.djangoapps.util.password_policy_validators.PunctuationValidator", "min_punctuation"),
   ("common.djangoapps.util.password_policy_validators.SymbolValidator", "min_symbol")]

/-- password_complexity: scan AUTH_PASSWORD_VALIDATORS, record the option
value (default 0) under each known rule name, then merge min_alphabetic
with min_lower / min_upper exactly as the source does. -/
def password_complexity (validators : List ValidatorEntry) : PyDict :=
  let complexity : PyDict :=
    validators.foldl
      (fun c v =>
        match knownValidatorsTable.lookup v.NAME with
        | some param_name => dictSet c param_name (dictGetD v.OPTIONS param_name 0)
        | none => c)
      []
  if optTruthy (dictGet complexity "min_alphabetic")
      && (optTruthy (dictGet complexity "min_lower")
          || optTruthy (dictGet complexity "min_upper")) then
    dictSet complexity "min_alphabetic"
      (max 0 (dictGetD complexity "min_alphabetic" 0
        - dictGetD complexity "min_lower" 0
        - dictGetD complexity "min_upper" 0))
  else
    complexity

/-- The password_rules dict of generate_password, in its insertion order. -/
def passwordRules : List (String × List Char) :=
  [("min_lower", asciiLowercase),
   ("min_upper", asciiUppercase),
   ("min_alphabetic", asciiLetters),
   ("min_numeric", pyDigits),
   ("min_punctuation", pyPunctuation),
   ("min_symbol", nonAsciiCharacters)]

/-- The inner loop of the per-class phase: draw n characters with
SystemRandom().choice, removing each drawn character from the pool
(elems.remove(next_char)).  Returns the drawn characters in draw order,
the remaining pool, and the remaining stream. -/
def drawDistinct : Nat → List Char → List Nat →
    Except String (List Char × List Char × List Nat)
  | 0, pool, s => Except.ok ([], pool, s)
  | n + 1, pool, s =>
    match pyChoice pool s with
    | Except.error e => Except.error e
    | Except.ok (c, s1) =>
      match drawDistinct n (pool.erase c) s1 with
      | Except.error e => Except.error e
      | Except.ok (drawn, pool1, s2) => Except.ok (c :: drawn, pool1, s2)

/-- The per-class loop of generate_password over a list of rules: for each
rule draw complexity.get(rule, 0) characters from its pool.  Returns the
per-rule draws (one list per rule, in rule order) and the remaining
stream. -/
def classPhase (complexity : PyDict) :
    List (String × List Char) → List Nat →
    Except String (List (List Char) × List Nat)
  | [], s => Except.ok ([], s)
  | (rule, pool) :: rest, s =>
    match drawDistinct (dictGetD complexity rule 0) pool s with
    | Except.error e => Except.error e
    | Except.ok (drawn, _, s1) =>
      match classPhase complexity rest s1 with
      | Except.error e => Except.error e
      | Except.ok (draws, s2) => Except.ok (drawn :: draws, s2)

/-- The fill loop: n independent SystemRandom().choice draws from chars
(no removal). -/
def fillPhase (chars : List Char) : Nat → List Nat →
    Except String (List Char × List Nat)
  | 0, s => Except.ok ([], s)
  | n + 1, s =>
    match pyChoice chars s with
    | Except.error e => Except.error e
    | Except.ok (c, s1) =>
      match fillPhase chars n s1 with
      | Except.error e => Except.error e
      | Except.ok (cs, s2) => Except.ok (c :: cs, s2)

/-- Swap the entries at positions i and j of a list (identity when either
index is out of range), as in the Fisher-Yates body of random.shuffle. -/
def listSwap (l : List Char) (i j : Nat) : List Char :=
  match l.get? i, l.get? j with
  | some a, some b => (l.set i b).set j a
  | _, _ => l

/-- The loop of random.shuffle: for i from the given start down to 1,
draw v from the Mersenne-Twister stream, set j = v % (i + 1), and swap
positions i and j. -/
def shuffleFrom : List Char → List Nat → Nat → List Char × List Nat
  | l, s, 0 => (l, s)
  | l, s, i + 1 =>
    shuffleFrom (listSwap l (i + 1) ((rnext s).1 % (i + 2))) (rnext s).2 i

/-- random.shuffle(x): Fisher-Yates over indices len-1 down to 1, drawing
from the module-level (Mersenne Twister) generator, not from the
SystemRandom instance used for the choice calls. -/
def pyShuffle (l : List Char) (s : List Nat) : List Char :=
  (shuffleFrom l s (l.length - 1)).1

/-- generate_password(length, chars) of user_authn/utils.py.  validators
stands for the AUTH_PASSWORD_VALIDATORS setting read by
password_complexity; sysRand is the stream of the SystemRandom instance
(per-class choices, then the fill); mtRand is the stream of the
module-level generator used by random.shuffle.  Note the source computes
max(length, complexity.get(min_length)) with no default, so an absent
min_length key raises a TypeError (max of int and None). -/
def generate_password (length : Nat) (chars : List Char)
    (validators : List ValidatorEntry) (sysRand mtRand : List Nat) :
    Except String (List Char) :=
  if length < 8 then
    Except.error "ValueError: password must be at least 8 characters"
  else
    let complexity := password_complexity validators
    match dictGet complexity "min_length" with
    | none =>
      Except.error "TypeError: max not supported between int and NoneType"
    | some min_length =>
      let password_length := max length min_length
      match classPhase complexity passwordRules sysRand with
      | Except.error e => Except.error e
      | Except.ok (draws, s1) =>
        let password := draws.flatten
        if password.length < password_length then
          match fillPhase chars (password_length - password.length) s1 with
          | Except.error e => Except.error e
          | Except.ok (fill, _) => Except.ok (pyShuffle (password ++ fill) mtRand)
        else
          Except.ok (pyShuffle password mtRand)

/-- Sum of the per-class minimums the per-class loop will draw, over the
six password_rules entries of the (merged) complexity dict. -/
def ruleSum (complexity : PyDict) : Nat :=
  (passwordRules.map (fun rp => dictGetD complexity rp.1 0)).sum

/-- Number of characters of pw that belong to a character class cls. -/
def countIn (cls : List Char) (pw : List Char) : Nat :=
  pw.countP (fun c => decide (c ∈ cls))

/-- Python str.lower(), character by character.  Structurally recursive
over the character list so that concrete instances reduce. -/
def pyLower (s : String) : String := (s.toList.map Char.toLower).asString

/-- Python str.upper(), character by character. -/
def pyUpper (s : String) : String := (s.toList.map Char.toUpper).asString

/-- Python slicing s[:n], by code points. -/
def pyTake (s : String) (n : Nat) : String := (s.toList.take n).asString

/-- Python slicing s[n:], by code points. -/
def pyDropStr (s : String) (n : Nat) : String := (s.toList.drop n).asString

/-- Python str.split(chr(32)): split on every single space, keeping empty
pieces, accumulating the current piece in reverse. -/
def pySplitOnSpace : List Char → List Char → List String
  | [], acc => [acc.reverse.asString]
  | c :: rest, acc =>
    if c = ' ' then acc.reverse.asString :: pySplitOnSpace rest []
    else pySplitOnSpace rest (c :: acc)

/-- Response of PwnedPasswordsAPI.range: None, the HTTP 408 timeout
sentinel, or the dict of hash suffixes to observation counts. -/
inductive PwnedResponse where
  | noResponse : PwnedResponse
  | timeout : PwnedResponse
  | counts : PyDict → PwnedResponse

/-- The properties dict built by check_pwned_password: each key is either
absent (none) or set. -/
structure PwnedProperties where
  vulnerability : Option String
  frequency : Option Nat
deriving DecidableEq, Repr

/-- check_pwned_password of user_authn/utils.py.  sha1hex stands for the
hashlib SHA-1 hex digest (external to this module) and rangeAPI for the
PwnedPasswordsAPI.range call.  math.ceil(math.log10 n) on a positive count
is the ceiling base-10 logarithm, Nat.clog 10 n. -/
def check_pwned_password (sha1hex : String → String)
    (rangeAPI : String → PwnedResponse) (password : String) : PwnedProperties :=
  let properties : PwnedProperties := { vulnerability := none, frequency := none }
  let hash := pyUpper (sha1hex password)
  match rangeAPI hash with
  | PwnedResponse.noResponse => properties
  | PwnedResponse.timeout =>
    let properties := { properties with vulnerability := some "unknown" }
    let pwned_count := 0
    if pwned_count > 0 then
      { properties with frequency := some (Nat.clog 10 pwned_count) }
    else
      properties
  | PwnedResponse.counts m =>
    let pwned_count := dictGetD m (pyDropStr hash 5) 0
    let properties :=
      { properties with
        vulnerability := some (if pwned_count > 0 then "yes" else "no") }
    if pwned_count > 0 then
      { properties with frequency := some (Nat.clog 10 pwned_count) }
    else
      properties

/-- Modelled from the spec: USERNAME_MAX_LENGTH is imported from the
user_api accounts app, which is not part of the sources under review; the
repository sets it to 30.  The properties proved below do not depend on
its value. -/
def USERNAME_MAX_LENGTH : Nat := 30

/-- remove_special_characters_from_name: join of re.findall of word
characters and hyphens, i.e. keep letters, digits, underscores and
hyphens and drop everything else. -/
def remove_special_characters_from_name (name : String) : String :=
  (name.toList.filter (fun c => c.isAlphanum || c = '_' || c = '-')).asString

/-- random.randint(lo, hi): one stream value mapped into the inclusive
range. -/
def pyRandint (lo hi v : Nat) : Nat := lo + v % (hi - lo + 1)

/-- The int_ranges table of generate_username_suggestions. -/
def intRanges : List (Nat × Nat) :=
  [(0, 9), (10, 99), (100, 999), (1000, 99999)]

/-- The inner for _ in range(10) loop: up to fuel attempts at drawing a
random suffix whose suggestion is available; stops at the first available
one (break). -/
def tryRandomSuffix (taken : String → Bool) (shortUsername : String)
    (lo hi : Nat) : Nat → List Nat → Option String × List Nat
  | 0, s => (none, s)
  | fuel + 1, s =>
    let (v, s1) := rnext s
    let random_int := pyRandint lo hi v
    let suggestion := shortUsername ++ "_" ++ toString random_int
    if taken suggestion then
      tryRandomSuffix taken shortUsername lo hi fuel s1
    else
      (some suggestion, s1)

/-- The outer loop over int_ranges: after each range the source checks
whether three suggestions have been collected and breaks. -/
def rangesLoop (taken : String → Bool) (shortUsername : String) :
    List (Nat × Nat) → List String → List Nat → List String
  | [], acc, _ => acc
  | (lo, hi) :: rest, acc, s =>
    match tryRandomSuffix taken shortUsername lo hi 10 s with
    | (none, s1) =>
      if acc.length = 3 then acc else rangesLoop taken shortUsername rest acc s1
    | (some suggestion, s1) =>
      let acc1 := acc ++ [suggestion]
      if acc1.length = 3 then acc1 else rangesLoop taken shortUsername rest acc1 s1

/-- The first block of generate_username_suggestions: when first and last
name differ and the first name is nonempty, append the two deterministic
combinations, each only if it is not taken. -/
def firstLastSuggestions (taken : String → Bool)
    (first_name last_name : String) : List String :=
  if first_name ≠ last_name ∧ first_name ≠ "" then
    let s1 := pyTake (first_name ++ last_name) USERNAME_MAX_LENGTH
    let acc1 := if taken s1 then [] else [s1]
    let s2 := pyTake (pyTake first_name 1 ++ "-" ++ last_name) USERNAME_MAX_LENGTH
    if taken s2 then acc1 else acc1 ++ [s2]
  else
    []

/-- generate_username_suggestions of user_authn/utils.py.  taken stands
for username_exists_or_retired (an external user-store query) and s for
the stream feeding random.randint. -/
def generate_username_suggestions (taken : String → Bool) (name : String)
    (s : List Nat) : List String :=
  let max_length := USERNAME_MAX_LENGTH
  let names := pySplitOnSpace name.toList []
  let first_name := remove_special_characters_from_name (pyLower (names.headD ""))
  let last_name := remove_special_characters_from_name (pyLower (names.getLastD ""))
  let suggestions0 : List String := firstLastSuggestions taken first_name last_name
  if first_name.length ≥ 2 then
    let short_username := pyTake first_name (max_length - 6)
    let short_username :=
      (short_username.toList.filter (fun c => c != '_' && c != '-')).asString
    rangesLoop taken short_username intRanges suggestions0 s
  else
    suggestions0

/-- Build one AUTH_PASSWORD_VALIDATORS entry for the concrete instances
below: the class path under password_policy_validators and a one-key
OPTIONS dict. -/
def mkValidator (clsName optKey : String) (v : Nat) : ValidatorEntry :=
  { NAME := "common.djangoapps.util.password_policy_validators." ++ clsName,
    OPTIONS := [(optKey, v)] }

/-- A concrete validator configuration: min_length 8, min_lower 2,
min_upper 1, min_numeric 1. -/
def demoValidators : List ValidatorEntry :=
  [mkValidator "MinimumLengthValidator" "min_length" 8,
   mkValidator "LowercaseValidator" "min_lower" 2,
   mkValidator "UppercaseValidator" "min_upper" 1,
   mkValidator "NumericValidator" "min_numeric" 1]

/-- A concrete validator configuration whose class minimums outgrow the
target length: min_length 8, min_lower 20. -/
def bigValidators : List ValidatorEntry :=
  [mkValidator "MinimumLengthValidator" "min_length" 8,
   mkValidator "LowercaseValidator" "min_lower" 20]

/-- A concrete validator configuration asking for more lowercase
characters than the 26 the lowercase pool holds. -/
def overdrawnValidators : List ValidatorEntry :=
  [mkValidator "MinimumLengthValidator" "min_length" 8,
   mkValidator "LowercaseValidator" "min_lower" 27]

theorem getD_mem (l : List Char) (n : Nat) (d : Char) (hn : n < l.length) :
    l.getD n d ∈ l := by
  rw [List.getD_eq_getElem?_getD, List.getElem?_eq_getElem hn, Option.getD_some]
  exact List.getElem_mem hn

theorem pyChoice_mem {pool : List Char} {s : List Nat} {c : Char} {s1 : List Nat}
    (h : pyChoice pool s = Except.ok (c, s1)) : c ∈ pool := by
  match pool with
  | [] => simp [pyChoice] at h
  | c0 :: rest =>
    simp only [pyChoice, Except.ok.injEq, Prod.mk.injEq] at h
    obtain ⟨h1, _⟩ := h
    rw [← h1]
    exact getD_mem _ _ _ (Nat.mod_lt _ (by simp))

theorem pyChoice_ok_of_ne {pool : List Char} (s : List Nat) (h : pool ≠ []) :
    ∃ c s1, pyChoice pool s = Except.ok (c, s1) := by
  match pool with
  | [] => exact absurd rfl h
  | c0 :: rest => exact ⟨_, _, rfl⟩

theorem drawDistinct_ok {n : Nat} {pool : List Char} {s : List Nat}
    {drawn pool1 : List Char} {s1 : List Nat}
    (h : drawDistinct n pool s = Except.ok (drawn, pool1, s1)) :
    drawn.length = n ∧ (∀ c ∈ drawn, c ∈ pool) ∧ (pool.Nodup → drawn.Nodup) := by
  induction n generalizing pool s drawn pool1 s1 with
  | zero =>
    simp only [drawDistinct, Except.ok.injEq, Prod.mk.injEq] at h
    obtain ⟨h1, _, _⟩ := h
    subst h1
    simp
  | succ n ih =>
    simp only [drawDistinct] at h
    cases hpc : pyChoice pool s with
    | error e => rw [hpc] at h; simp at h
    | ok cs1 =>
      obtain ⟨c, s2⟩ := cs1
      rw [hpc] at h
      simp only at h
      cases hd : drawDistinct n (pool.erase c) s2 with
      | error e => rw [hd] at h; simp at h
      | ok out =>
        obtain ⟨drawn2, pool2, s3⟩ := out
        rw [hd] at h
        simp only [Except.ok.injEq, Prod.mk.injEq] at h
        obtain ⟨h1, _, _⟩ := h
        subst h1
        obtain ⟨hlen, hmem, hnd⟩ := ih hd
        refine ⟨by simp [hlen], ?_, ?_⟩
        · intro a ha
          rcases List.mem_cons.1 ha with ha | ha
          · exact ha ▸ pyChoice_mem hpc
          · exact List.mem_of_mem_erase (hmem a ha)
        · intro hnodup
          refine List.nodup_cons.2 ⟨fun hc => ?_, hnd (hnodup.erase c)⟩
          exact hnodup.not_mem_erase (hmem c hc)

theorem drawDistinct_ok_of_le {n : Nat} {pool : List Char} (s : List Nat)
    (hle : n ≤ pool.length) :
    ∃ out, drawDistinct n pool s = Except.ok out := by
  induction n generalizing pool s with
  | zero => exact ⟨_, rfl⟩
  | succ n ih =>
    have hne : pool ≠ [] := by
      intro he
      rw [he] at hle
      simp at hle
    obtain ⟨c, s1, hpc⟩ := pyChoice_ok_of_ne s hne
    have hc : c ∈ pool := pyChoice_mem hpc
    have hlen : n ≤ (pool.erase c).length := by
      rw [List.length_erase, if_pos hc]
      omega
    obtain ⟨out, hd⟩ := ih s1 hlen
    obtain ⟨drawn, pool2, s2⟩ := out
    refine ⟨(c :: drawn, pool2, s2), ?_⟩
    simp only [drawDistinct]
    rw [hpc]
    simp only
    rw [hd]

theorem drawDistinct_err_of_lt {n : Nat} {pool : List Char} (s : List Nat)
    (hlt : pool.length < n) :
    ∃ e, drawDistinct n pool s = Except.error e := by
  induction n generalizing pool s with
  | zero => omega
  | succ n ih =>
    cases pool with
    | nil =>
      exact ⟨"IndexError: cannot choose from an empty sequence",
        by simp [drawDistinct, pyChoice]⟩
    | cons c0 rest =>
      obtain ⟨c, s1, hpc⟩ := @pyChoice_ok_of_ne (c0 :: rest) s (List.cons_ne_nil c0 rest)
      have hc : c ∈ c0 :: rest := pyChoice_mem hpc
      have hlen : ((c0 :: rest).erase c).length < n := by
        rw [List.length_erase, if_pos hc]
        simp only [List.length_cons] at hlt ⊢
        omega
      obtain ⟨e, hd⟩ := ih s1 hlen
      refine ⟨e, ?_⟩
      simp only [drawDistinct]
      rw [hpc]
      simp only
      rw [hd]

theorem classPhase_ok {c : PyDict} {rules : List (String × List Char)}
    {s : List Nat} {draws : List (List Char)} {s1 : List Nat}
    (h : classPhase c rules s = Except.ok (draws, s1)) :
    List.Forall₂
      (fun rp d => d.length = dictGetD c rp.1 0 ∧ (∀ ch ∈ d, ch ∈ rp.2) ∧
        (rp.2.Nodup → d.Nodup))
      rules draws := by
  induction rules generalizing s draws s1 with
  | nil =>
    simp only [classPhase, Except.ok.injEq, Prod.mk.injEq] at h
    obtain ⟨h1, _⟩ := h
    subst h1
    exact List.Forall₂.nil
  | cons rp rest ih =>
    obtain ⟨rule, pool⟩ := rp
    simp only [classPhase] at h
    cases hd : drawDistinct (dictGetD c rule 0) pool s with
    | error e => rw [hd] at h; simp at h
    | ok out =>
      obtain ⟨drawn, pool1, s2⟩ := out
      rw [hd] at h
      simp only at h
      cases hcp : classPhase c rest s2 with
      | error e => rw [hcp] at h; simp at h
      | ok out2 =>
        obtain ⟨draws2, s3⟩ := out2
        rw [hcp] at h
        simp only [Except.ok.injEq, Prod.mk.injEq] at h
        obtain ⟨h1, _⟩ := h
        subst h1
        obtain ⟨hlen, hmem, hnd⟩ := drawDistinct_ok hd
        exact List.Forall₂.cons ⟨hlen, hmem, hnd⟩ (ih hcp)

theorem classPhase_flatten_length {c : PyDict} {rules : List (String × List Char)}
    {s : List Nat} {draws : List (List Char)} {s1 : List Nat}
    (h : classPhase c rules s = Except.ok (draws, s1)) :
    draws.flatten.length = (rules.map (fun rp => dictGetD c rp.1 0)).sum := by
  induction rules generalizing s draws s1 with
  | nil =>
    simp only [classPhase, Except.ok.injEq, Prod.mk.injEq] at h
    obtain ⟨h1, _⟩ := h
    subst h1
    simp
  | cons rp rest ih =>
    obtain ⟨rule, pool⟩ := rp
    simp only [classPhase] at h
    cases hd : drawDistinct (dictGetD c rule 0) pool s with
    | error e => rw [hd] at h; simp at h
    | ok out =>
      obtain ⟨drawn, pool1, s2⟩ := out
      rw [hd] at h
      simp only at h
      cases hcp : classPhase c rest s2 with
      | error e => rw [hcp] at h; simp at h
      | ok out2 =>
        obtain ⟨draws2, s3⟩ := out2
        rw [hcp] at h
        simp only [Except.ok.injEq, Prod.mk.injEq] at h
        obtain ⟨h1, _⟩ := h
        subst h1
        obtain ⟨hlen, _, _⟩ := drawDistinct_ok hd
        simp [ih hcp, hlen]

theorem classPhase_ok_of_le {c : PyDict} {rules : List (String × List Char)}
    (s : List Nat) (hle : ∀ rp ∈ rules, dictGetD c rp.1 0 ≤ rp.2.length) :
    ∃ out, classPhase c rules s = Except.ok out := by
  induction rules generalizing s with
  | nil => exact ⟨_, rfl⟩
  | cons rp rest ih =>
    obtain ⟨rule, pool⟩ := rp
    obtain ⟨out, hd⟩ := drawDistinct_ok_of_le s (hle (rule, pool) (by simp))
    obtain ⟨drawn, pool1, s2⟩ := out
    obtain ⟨out2, hcp⟩ := ih s2 (fun rp2 h2 => hle rp2 (List.mem_cons_of_mem _ h2))
    obtain ⟨draws2, s3⟩ := out2
    refine ⟨(drawn :: draws2, s3), ?_⟩
    simp only [classPhase]
    rw [hd]
    simp only
    rw [hcp]

theorem classPhase_err_of_exists {c : PyDict} {rules : List (String × List Char)}
    (s : List Nat)
    (hex : ∃ rp ∈ rules, rp.2.length < dictGetD c rp.1 0) :
    ∃ e, classPhase c rules s = Except.error e := by
  induction rules generalizing s with
  | nil => simp at hex
  | cons rp0 rest ih =>
    obtain ⟨rule, pool⟩ := rp0
    by_cases hhead : pool.length < dictGetD c rule 0
    · obtain ⟨e, hd⟩ := drawDistinct_err_of_lt s hhead
      refine ⟨e, ?_⟩
      simp only [classPhase]
      rw [hd]
    · cases hd : drawDistinct (dictGetD c rule 0) pool s with
      | error e =>
        exact ⟨e, by simp only [classPhase]; rw [hd]⟩
      | ok out =>
        obtain ⟨drawn, pool1, s2⟩ := out
        have hex2 : ∃ rp ∈ rest, rp.2.length < dictGetD c rp.1 0 := by
          obtain ⟨rp, hrp, hlt⟩ := hex
          rcases List.mem_cons.1 hrp with he | hm
          · exfalso
            apply hhead
            rw [he] at hlt
            exact hlt
          · exact ⟨rp, hm, hlt⟩
        obtain ⟨e, hcp⟩ := ih s2 hex2
        refine ⟨e, ?_⟩
        simp only [classPhase]
        rw [hd]
        simp only
        rw [hcp]

theorem fillPhase_ok {chars : List Char} {n : Nat} {s : List Nat}
    {fill : List Char} {s1 : List Nat}
    (h : fillPhase chars n s = Except.ok (fill, s1)) : fill.length = n := by
  induction n generalizing s fill s1 with
  | zero =>
    simp only [fillPhase, Except.ok.injEq, Prod.mk.injEq] at h
    obtain ⟨h1, _⟩ := h
    subst h1
    rfl
  | succ n ih =>
    simp only [fillPhase] at h
    cases hpc : pyChoice chars s with
    | error e => rw [hpc] at h; simp at h
    | ok cs1 =>
      obtain ⟨ch, s2⟩ := cs1
      rw [hpc] at h
      simp only at h
      cases hf : fillPhase chars n s2 with
      | error e => rw [hf] at h; simp at h
      | ok out =>
        obtain ⟨fill2, s3⟩ := out
        rw [hf] at h
        simp only [Except.ok.injEq, Prod.mk.injEq] at h
        obtain ⟨h1, _⟩ := h
        subst h1
        simp [ih hf]

theorem cons_set_perm (t : List Char) (j : Nat) (a b : Char)
    (h : t.get? j = some b) : List.Perm (b :: t.set j a) (a :: t) := by
  induction t generalizing j with
  | nil => simp at h
  | cons x t ih =>
    cases j with
    | zero =>
      simp only [List.get?] at h
      obtain rfl : x = b := by injection h
      exact List.Perm.swap a x t
    | succ k =>
      simp only [List.get?] at h
      show List.Perm (b :: x :: t.set k a) (a :: x :: t)
      exact (List.Perm.swap x b _).trans
        ((List.Perm.cons x (ih k h)).trans (List.Perm.swap a x t))

theorem set_set_perm {l : List Char} {i j : Nat} {a b : Char}
    (hi : l.get? i = some a) (hj : l.get? j = some b) :
    List.Perm ((l.set i b).set j a) l := by
  induction l generalizing i j with
  | nil => simp at hi
  | cons x t ih =>
    cases i with
    | zero =>
      obtain rfl : x = a := by injection hi
      cases j with
      | zero => exact List.Perm.refl _
      | succ k =>
        simp only [List.get?] at hj
        exact cons_set_perm t k x b hj
    | succ m =>
      simp only [List.get?] at hi
      cases j with
      | zero =>
        obtain rfl : x = b := by injection hj
        exact cons_set_perm t m x a hi
      | succ k =>
        simp only [List.get?] at hj
        exact List.Perm.cons x (ih hi hj)

theorem listSwap_perm (l : List Char) (i j : Nat) :
    List.Perm (listSwap l i j) l := by
  unfold listSwap
  cases hi : l.get? i with
  | none => exact List.Perm.refl _
  | some a =>
    cases hj : l.get? j with
    | none => exact List.Perm.refl _
    | some b => exact set_set_perm hi hj

theorem shuffleFrom_perm (i : Nat) :
    ∀ (l : List Char) (s : List Nat), List.Perm (shuffleFrom l s i).1 l := by
  induction i with
  | zero => intro l s; exact List.Perm.refl _
  | succ i ih =>
    intro l s
    exact (ih _ _).trans (listSwap_perm l (i + 1) ((rnext s).1 % (i + 2)))

theorem pyShuffle_perm (l : List Char) (s : List Nat) :
    List.Perm (pyShuffle l s) l :=
  shuffleFrom_perm (l.length - 1) l s

theorem generate_password_ok_decomp {L : Nat} {chars : List Char}
    {V : List ValidatorEntry} {sys mt : List Nat} {pw : List Char}
    (h : generate_password L chars V sys mt = Except.ok pw) :
    ∃ m draws s1 fill,
      dictGet (password_complexity V) "min_length" = some m ∧
      classPhase (password_complexity V) passwordRules sys =
        Except.ok (draws, s1) ∧
      fill.length = max L m - draws.flatten.length ∧
      List.Perm pw (draws.flatten ++ fill) := by
  simp only [generate_password] at h
  split at h
  · simp at h
  · cases hm : dictGet (password_complexity V) "min_length" with
    | none => rw [hm] at h; simp at h
    | some m =>
      rw [hm] at h
      simp only at h
      cases hcp : classPhase (password_complexity V) passwordRules sys with
      | error e => rw [hcp] at h; simp at h
      | ok out =>
        obtain ⟨draws, s1⟩ := out
        rw [hcp] at h
        simp only at h
        split at h
        · cases hf : fillPhase chars (max L m - draws.flatten.length) s1 with
          | error e => rw [hf] at h; simp at h
          | ok out2 =>
            obtain ⟨fill, s2⟩ := out2
            rw [hf] at h
            simp only [Except.ok.injEq] at h
            refine ⟨m, draws, s1, fill, rfl, rfl, fillPhase_ok hf, ?_⟩
            rw [← h]
            exact pyShuffle_perm _ _
        · rename_i hge
          simp only [Except.ok.injEq] at h
          refine ⟨m, draws, s1, [], rfl, rfl, ?_, ?_⟩
          · simp only [List.length_nil]
            omega
          · rw [← h, List.append_nil]
            exact pyShuffle_perm _ _

theorem generate_password_mt_det {L : Nat} {chars : List Char}
    {V : List ValidatorEntry} {sys mt : List Nat} {pw : List Char}
    (h : generate_password L chars V sys mt = Except.ok pw) (mt2 : List Nat) :
    ∃ pw2, generate_password L chars V sys mt2 = Except.ok pw2 ∧
      List.Perm pw pw2 := by
  simp only [generate_password] at h ⊢
  split at h
  · simp at h
  · rename_i h8
    rw [if_neg h8]
    cases hm : dictGet (password_complexity V) "min_length" with
    | none => rw [hm] at h; simp at h
    | some m =>
      rw [hm] at h
      simp only at h ⊢
      cases hcp : classPhase (password_complexity V) passwordRules sys with
      | error e => rw [hcp] at h; simp at h
      | ok out =>
        obtain ⟨draws, s1⟩ := out
        rw [hcp] at h
        simp only at h ⊢
        split at h
        · rename_i hlt
          rw [if_pos hlt]
          cases hf : fillPhase chars (max L m - draws.flatten.length) s1 with
          | error e => rw [hf] at h; simp at h
          | ok out2 =>
            obtain ⟨fill, s2⟩ := out2
            rw [hf] at h
            simp only at h ⊢
            simp only [Except.ok.injEq] at h
            refine ⟨_, rfl, ?_⟩
            rw [← h]
            exact (pyShuffle_perm _ _).trans (pyShuffle_perm _ _).symm
        · rename_i hge
          rw [if_neg hge]
          simp only [Except.ok.injEq] at h
          refine ⟨_, rfl, ?_⟩
          rw [← h]
          exact (pyShuffle_perm _ _).trans (pyShuffle_perm _ _).symm

theorem countIn_all {cls d : List Char} (h : ∀ ch ∈ d, ch ∈ cls) :
    countIn cls d = d.length := by
  unfold countIn
  rw [List.countP_eq_length]
  intro a ha
  exact decide_eq_true (h a ha)

theorem countIn_append (cls a b : List Char) :
    countIn cls (a ++ b) = countIn cls a + countIn cls b :=
  List.countP_append _ _ _

theorem countIn_perm (cls : List Char) {l1 l2 : List Char}
    (h : List.Perm l1 l2) : countIn cls l1 = countIn cls l2 :=
  h.countP_eq _

theorem forall2_mem_right {α β : Type} {R : α → β → Prop} :
    ∀ {l1 : List α} {l2 : List β}, List.Forall₂ R l1 l2 →
      ∀ b ∈ l2, ∃ a ∈ l1, R a b := by
  intro l1 l2 h
  induction h with
  | nil => intro b hb; simp at hb
  | cons hr _ ih =>
    intro b hb
    rcases List.mem_cons.1 hb with rfl | hb2
    · exact ⟨_, by simp, hr⟩
    · obtain ⟨a, ha, hab⟩ := ih b hb2
      exact ⟨a, List.mem_cons_of_mem _ ha, hab⟩

theorem pools_nodup : ∀ rp ∈ passwordRules, (rp.2 : List Char).Nodup := by
  decide

theorem gen_pw_length {L : Nat} {chars : List Char} {V : List ValidatorEntry}
    {sys mt : List Nat} {pw : List Char}
    (h : generate_password L chars V sys mt = Except.ok pw) :
    pw.length =
      max (max L (dictGetD (password_complexity V) "min_length" 0))
        (ruleSum (password_complexity V)) := by
  obtain ⟨m, draws, s1, fill, hm, hcp, hfl, hperm⟩ :=
    generate_password_ok_decomp h
  have hgd : dictGetD (password_complexity V) "min_length" 0 = m := by
    simp [dictGetD, hm]
  have hlen := hperm.length_eq
  rw [List.length_append] at hlen
  have hflat := classPhase_flatten_length hcp
  have hrs : ruleSum (password_complexity V) = draws.flatten.length := by
    rw [ruleSum, ← hflat]
  rw [hgd, hrs]
  omega

theorem tryRandomSuffix_some {taken : String → Bool} {shortUsername : String}
    {lo hi fuel : Nat} {s : List Nat} {sugg : String} {s1 : List Nat}
    (h : tryRandomSuffix taken shortUsername lo hi fuel s = (some sugg, s1)) :
    taken sugg = false := by
  induction fuel generalizing s with
  | zero => simp [tryRandomSuffix] at h
  | succ fuel ih =>
    simp only [tryRandomSuffix] at h
    split at h
    · exact ih h
    · rename_i hnt
      simp only [Prod.mk.injEq, Option.some.injEq] at h
      obtain ⟨h1, _⟩ := h
      rw [← h1]
      exact Bool.eq_false_iff.mpr hnt

theorem rangesLoop_not_taken {taken : String → Bool} {shortUsername : String} :
    ∀ (ranges : List (Nat × Nat)) (acc : List String) (s : List Nat),
      (∀ u ∈ acc, taken u = false) →
      ∀ u ∈ rangesLoop taken shortUsername ranges acc s, taken u = false := by
  intro ranges
  induction ranges with
  | nil => intro acc s hacc u hu; exact hacc u hu
  | cons r rest ih =>
    intro acc s hacc u hu
    obtain ⟨lo, hi⟩ := r
    simp only [rangesLoop] at hu
    cases ht : tryRandomSuffix taken shortUsername lo hi 10 s with
    | mk o s1 =>
      rw [ht] at hu
      cases o with
      | none =>
        simp only at hu
        split at hu
        · exact hacc u hu
        · exact ih acc s1 hacc u hu
      | some sugg =>
        simp only at hu
        have hsugg : taken sugg = false := tryRandomSuffix_some ht
        have hacc1 : ∀ v ∈ acc ++ [sugg], taken v = false := by
          intro v hv
          rcases List.mem_append.1 hv with hv | hv
          · exact hacc v hv
          · rw [List.mem_singleton.1 hv]
            exact hsugg
        split at hu
        · exact hacc1 u hu
        · exact ih (acc ++ [sugg]) s1 hacc1 u hu

theorem firstLastSuggestions_not_taken (taken : String → Bool)
    (first_name last_name : String) :
    ∀ u ∈ firstLastSuggestions taken first_name last_name, taken u = false := by
  intro u hu
  simp only [firstLastSuggestions] at hu
  split at hu
  · split at hu
    · split at hu
      · simp at hu
      · rename_i hs1
        rw [List.mem_singleton.1 hu]
        exact Bool.eq_false_iff.mpr hs1
    · rename_i hs2
      rcases List.mem_append.1 hu with hu1 | hu2
      · split at hu1
        · simp at hu1
        · rename_i hs1
          rw [List.mem_singleton.1 hu1]
          exact Bool.eq_false_iff.mpr hs1
      · rw [List.mem_singleton.1 hu2]
        exact Bool.eq_false_iff.mpr hs2
  · simp at hu

/-- C5: for every requested length strictly below 8, generate_password
raises the ValueError validation error, whatever the policy, the pool and
the random streams. -/
theorem c5_short_length_fails (L : Nat) (hL : L < 8) (chars : List Char)
    (V : List ValidatorEntry) (sys mt : List Nat) :
    generate_password L chars V sys mt =
      Except.error "ValueError: password must be at least 8 characters" := by
  simp [generate_password, hL]

/-- C5 witness: requesting length 7 fails. -/
theorem c5_witness :
    7 < 8 ∧
    generate_password 7 defaultChars [] [] [] =
      Except.error "ValueError: password must be at least 8 characters" :=
  ⟨by decide, c5_short_length_fails 7 (by decide) defaultChars [] [] []⟩

/-- C4 counterexample: with no MinimumLengthValidator configured (so no
min_length key in the complexity dict), generate_password at the valid
requested length 12 raises a TypeError (max of int and None) instead of
returning a password of the requested length, refuting the claim that an
absent min_length still yields a successful result. -/
theorem c4_counterexample :
    generate_password 12 defaultChars [] [] [] =
      Except.error "TypeError: max not supported between int and NoneType" := rfl

/-- C4 amended: a rule absent from the merged complexity dict is read as
minimum 0 by the per-class loop (complexity.get(rule, 0)); but a policy
with no min_length entry makes generate_password raise a TypeError rather
than return a password of the requested length. -/
theorem c4_absent_rules (V : List ValidatorEntry) (L : Nat) (chars : List Char)
    (sys mt : List Nat) :
    (dictGet (password_complexity V) "min_length" = none →
      ∃ e, generate_password L chars V sys mt = Except.error e) ∧
    (∀ rule, dictGet (password_complexity V) rule = none →
      dictGetD (password_complexity V) rule 0 = 0) := by
  constructor
  · intro hm
    by_cases hL : L < 8
    · refine ⟨"ValueError: password must be at least 8 characters", ?_⟩
      simp [generate_password, hL]
    · refine ⟨"TypeError: max not supported between int and NoneType", ?_⟩
      simp [generate_password, hL, hm]
  · intro rule h
    simp [dictGetD, h]

/-- C4 witness: with an empty validator list, generate_password errors and
the absent min_lower rule reads as 0. -/
theorem c4_witness :
    (∃ e, generate_password 12 defaultChars [] [] [] = Except.error e) ∧
    dictGetD (password_complexity []) "min_lower" 0 = 0 :=
  ⟨(c4_absent_rules [] 12 defaultChars [] []).1 rfl,
   (c4_absent_rules [] 12 defaultChars [] []).2 "min_lower" rfl⟩

/-- C6: a timeout from the breach-lookup service yields vulnerability
unknown with no frequency field and no exception; a counts response yields
vulnerability yes exactly when the count recorded for the hash suffix is
positive, and no when it is zero. -/
theorem c6_pwned_timeout_unknown (sha1hex : String → String)
    (rangeAPI : String → PwnedResponse) (password : String) :
    (rangeAPI (pyUpper (sha1hex password)) = PwnedResponse.timeout →
      check_pwned_password sha1hex rangeAPI password =
        { vulnerability := some "unknown", frequency := none }) ∧
    (∀ m, rangeAPI (pyUpper (sha1hex password)) = PwnedResponse.counts m →
      (check_pwned_password sha1hex rangeAPI password).vulnerability =
        some (if dictGetD m (pyDropStr (pyUpper (sha1hex password)) 5) 0 > 0
              then "yes" else "no")) := by
  constructor
  · intro ht
    simp [check_pwned_password, ht]
  · intro m hm
    simp only [check_pwned_password, hm]
    by_cases hc : dictGetD m (pyDropStr (pyUpper (sha1hex password)) 5) 0 > 0
    · simp [hc]
    · simp [hc]

/-- C6 witness: a concrete timeout response maps to unknown with no
frequency, and a concrete counts response with count 150 maps to yes. -/
theorem c6_witness :
    check_pwned_password (fun _ => "abcde12345")
        (fun _ => PwnedResponse.timeout) "pw" =
      { vulnerability := some "unknown", frequency := none } ∧
    (check_pwned_password (fun _ => "abcde12345")
        (fun _ => PwnedResponse.counts [("12345", 150)]) "pw").vulnerability =
      some (if dictGetD [("12345", 150)]
              (pyDropStr (pyUpper ((fun (_ : String) => "abcde12345") "pw")) 5) 0 > 0
            then "yes" else "no") :=
  ⟨(c6_pwned_timeout_unknown (fun _ => "abcde12345")
      (fun _ => PwnedResponse.timeout) "pw").1 rfl,
   (c6_pwned_timeout_unknown (fun _ => "abcde12345")
      (fun _ => PwnedResponse.counts [("12345", 150)]) "pw").2
      [("12345", 150)] rfl⟩

/-- C10: a None response from the breach-lookup service yields an empty
properties mapping; the frequency field is present exactly when the
vulnerability field is yes; and when present it equals the ceiling
base-10 logarithm of the positive observed count. -/
theorem c10_pwned_fields (sha1hex : String → String)
    (rangeAPI : String → PwnedResponse) (password : String) :
    (rangeAPI (pyUpper (sha1hex password)) = PwnedResponse.noResponse →
      check_pwned_password sha1hex rangeAPI password =
        { vulnerability := none, frequency := none }) ∧
    ((check_pwned_password sha1hex rangeAPI password).frequency.isSome = true ↔
      (check_pwned_password sha1hex rangeAPI password).vulnerability =
        some "yes") ∧
    (∀ m, rangeAPI (pyUpper (sha1hex password)) = PwnedResponse.counts m →
      dictGetD m (pyDropStr (pyUpper (sha1hex password)) 5) 0 > 0 →
      (check_pwned_password sha1hex rangeAPI password).frequency =
        some (Nat.clog 10
          (dictGetD m (pyDropStr (pyUpper (sha1hex password)) 5) 0))) := by
  refine ⟨?_, ?_, ?_⟩
  · intro hn
    simp [check_pwned_password, hn]
  · cases hr : rangeAPI (pyUpper (sha1hex password)) with
    | noResponse => simp [check_pwned_password, hr]
    | timeout => simp [check_pwned_password, hr]
    | counts m =>
      by_cases hc : dictGetD m (pyDropStr (pyUpper (sha1hex password)) 5) 0 > 0
      · simp [check_pwned_password, hr, hc]
      · simp [check_pwned_password, hr, hc]
  · intro m hm hc
    simp [check_pwned_password, hm, hc]

/-- C10 witness: concrete None, counts-0 and counts-150 responses show
the empty mapping, the present-iff-yes equivalence and the frequency
value ceil(log10 150) = 3. -/
theorem c10_witness :
    check_pwned_password (fun _ => "abcde12345")
        (fun _ => PwnedResponse.noResponse) "pw" =
      { vulnerability := none, frequency := none } ∧
    ((check_pwned_password (fun _ => "abcde12345")
        (fun _ => PwnedResponse.counts [("12345", 150)]) "pw").frequency.isSome
        = true ↔
      (check_pwned_password (fun _ => "abcde12345")
        (fun _ => PwnedResponse.counts [("12345", 150)]) "pw").vulnerability =
        some "yes") ∧
    (check_pwned_password (fun _ => "abcde12345")
        (fun _ => PwnedResponse.counts [("12345", 150)]) "pw").frequency =
      some (Nat.clog 10
        (dictGetD [("12345", 150)]
          (pyDropStr (pyUpper ((fun (_ : String) => "abcde12345") "pw")) 5) 0)) :=
  ⟨(c10_pwned_fields (fun _ => "abcde12345")
      (fun _ => PwnedResponse.noResponse) "pw").1 rfl,
   (c10_pwned_fields (fun _ => "abcde12345")
      (fun _ => PwnedResponse.counts [("12345", 150)]) "pw").2.1,
   (c10_pwned_fields (fun _ => "abcde12345")
      (fun _ => PwnedResponse.counts [("12345", 150)]) "pw").2.2
      [("12345", 150)] rfl (by decide)⟩

/-- C7: every username returned by generate_username_suggestions was
checked against the existence oracle before being appended, so no
suggestion the oracle marks as existing or retired is ever returned. -/
theorem c7_suggestions_not_taken (taken : String → Bool) (name : String)
    (s : List Nat) :
    ∀ u ∈ generate_username_suggestions taken name s, taken u = false := by
  intro u hu
  simp only [generate_username_suggestions] at hu
  split at hu
  · exact rangesLoop_not_taken intRanges _ s
      (firstLastSuggestions_not_taken taken _ _) u hu
  · exact firstLastSuggestions_not_taken taken _ _ u hu

/-- C7 witness: with an oracle under which no name is taken, the first
suggestion for John Smith is johnsmith, and it is not taken. -/
theorem c7_witness :
    "johnsmith" ∈
      generate_username_suggestions (fun _ => false) "John Smith" [5] ∧
    (fun (_ : String) => false) "johnsmith" = false :=
  ⟨by decide,
   c7_suggestions_not_taken (fun _ => false) "John Smith" [5] "johnsmith"
     (by decide)⟩

/-- C2 counterexample: with min_length 8 and min_lower 20, requesting
length 8 returns a 20-character password, while max(requested length,
policy min_length) is 8, refuting the claimed length formula. -/
theorem c2_counterexample :
    generate_password 8 defaultChars bigValidators [] [] =
      Except.ok ("bcdefghijklmnopqrsta".toList) ∧
    ("bcdefghijklmnopqrsta".toList).length ≠
      max 8 (dictGetD (password_complexity bigValidators) "min_length" 0) :=
  ⟨rfl, by decide⟩

/-- C2 amended: the length of a returned password equals the maximum of
max(requested length, policy min_length) and the sum of the per-class
minimums of the merged policy. -/
theorem c2_length_formula (L : Nat) (chars : List Char)
    (V : List ValidatorEntry) (sys mt : List Nat) (pw : List Char)
    (h : generate_password L chars V sys mt = Except.ok pw) :
    pw.length =
      max (max L (dictGetD (password_complexity V) "min_length" 0))
        (ruleSum (password_complexity V)) :=
  gen_pw_length h

/-- C2 witness: the amended formula evaluated on the min_lower 20
configuration at requested length 8. -/
theorem c2_witness :
    ("bcdefghijklmnopqrsta".toList).length =
      max (max 8 (dictGetD (password_complexity bigValidators) "min_length" 0))
        (ruleSum (password_complexity bigValidators)) :=
  c2_length_formula 8 defaultChars bigValidators [] []
    ("bcdefghijklmnopqrsta".toList) rfl

/-- C3: when the summed per-class minimums of the merged policy exceed
max(requested length, policy min_length), the returned password has
exactly that policy-driven total number of characters. -/
theorem c3_policy_driven_length (L : Nat) (chars : List Char)
    (V : List ValidatorEntry) (sys mt : List Nat) (pw : List Char)
    (h : generate_password L chars V sys mt = Except.ok pw)
    (hgt : max L (dictGetD (password_complexity V) "min_length" 0) <
      ruleSum (password_complexity V)) :
    pw.length = ruleSum (password_complexity V) := by
  rw [gen_pw_length h]
  omega

/-- C3 witness: the min_lower 20 configuration at requested length 8
yields exactly ruleSum = 20 characters. -/
theorem c3_witness :
    max 8 (dictGetD (password_complexity bigValidators) "min_length" 0) <
      ruleSum (password_complexity bigValidators) ∧
    ("bcdefghijklmnopqrsta".toList).length =
      ruleSum (password_complexity bigValidators) :=
  ⟨by decide,
   c3_policy_driven_length 8 defaultChars bigValidators [] []
     ("bcdefghijklmnopqrsta".toList) rfl (by decide)⟩

/-- C1: every password returned by generate_password contains at least
the merged policy minimum number of characters of each class (lowercase,
uppercase, alphabetic, digit, punctuation, symbol); fill characters can
only add to the counts, and the shuffle preserves them. -/
theorem c1_class_minimums_met (L : Nat) (chars : List Char)
    (V : List ValidatorEntry) (sys mt : List Nat) (pw : List Char)
    (h : generate_password L chars V sys mt = Except.ok pw) :
    dictGetD (password_complexity V) "min_lower" 0 ≤
      countIn asciiLowercase pw ∧
    dictGetD (password_complexity V) "min_upper" 0 ≤
      countIn asciiUppercase pw ∧
    dictGetD (password_complexity V) "min_alphabetic" 0 ≤
      countIn asciiLetters pw ∧
    dictGetD (password_complexity V) "min_numeric" 0 ≤
      countIn pyDigits pw ∧
    dictGetD (password_complexity V) "min_punctuation" 0 ≤
      countIn pyPunctuation pw ∧
    dictGetD (password_complexity V) "min_symbol" 0 ≤
      countIn nonAsciiCharacters pw := by
  obtain ⟨m, draws, s1, fill, hm, hcp, hfl, hperm⟩ :=
    generate_password_ok_decomp h
  have hF := classPhase_ok hcp
  simp only [passwordRules] at hF
  rcases hF with _ | ⟨h1, hF⟩
  rcases hF with _ | ⟨h2, hF⟩
  rcases hF with _ | ⟨h3, hF⟩
  rcases hF with _ | ⟨h4, hF⟩
  rcases hF with _ | ⟨h5, hF⟩
  rcases hF with _ | ⟨h6, hF⟩
  cases hF
  rename_i d1 d2 d3 d4 d5 d6
  have htot : ∀ cls, countIn cls pw =
      countIn cls d1 + countIn cls d2 + countIn cls d3 + countIn cls d4 +
        countIn cls d5 + countIn cls d6 + countIn cls fill := by
    intro cls
    rw [countIn_perm cls hperm]
    simp only [List.flatten_cons, List.flatten_nil, List.append_nil,
      ← List.append_assoc]
    simp only [countIn_append]
  refine ⟨?_, ?_, ?_, ?_, ?_, ?_⟩
  · have e1 : countIn asciiLowercase d1 = dictGetD (password_complexity V) "min_lower" 0 :=
      (countIn_all h1.2.1).trans h1.1
    have := htot asciiLowercase
    omega
  · have e2 : countIn asciiUppercase d2 = dictGetD (password_complexity V) "min_upper" 0 :=
      (countIn_all h2.2.1).trans h2.1
    have := htot asciiUppercase
    omega
  · have e3 : countIn asciiLetters d3 = dictGetD (password_complexity V) "min_alphabetic" 0 :=
      (countIn_all h3.2.1).trans h3.1
    have := htot asciiLetters
    omega
  · have e4 : countIn pyDigits d4 = dictGetD (password_complexity V) "min_numeric" 0 :=
      (countIn_all h4.2.1).trans h4.1
    have := htot pyDigits
    omega
  · have e5 : countIn pyPunctuation d5 = dictGetD (password_complexity V) "min_punctuation" 0 :=
      (countIn_all h5.2.1).trans h5.1
    have := htot pyPunctuation
    omega
  · have e6 : countIn nonAsciiCharacters d6 = dictGetD (password_complexity V) "min_symbol" 0 :=
      (countIn_all h6.2.1).trans h6.1
    have := htot nonAsciiCharacters
    omega

/-- C1 witness: a concrete run under the demo policy (min_lower 2,
min_upper 1, min_numeric 1, min_length 8) meets every class minimum. -/
theorem c1_witness :
    dictGetD (password_complexity demoValidators) "min_lower" 0 ≤
      countIn asciiLowercase ("cC3efghijaaa".toList) ∧
    dictGetD (password_complexity demoValidators) "min_upper" 0 ≤
      countIn asciiUppercase ("cC3efghijaaa".toList) ∧
    dictGetD (password_complexity demoValidators) "min_alphabetic" 0 ≤
      countIn asciiLetters ("cC3efghijaaa".toList) ∧
    dictGetD (password_complexity demoValidators) "min_numeric" 0 ≤
      countIn pyDigits ("cC3efghijaaa".toList) ∧
    dictGetD (password_complexity demoValidators) "min_punctuation" 0 ≤
      countIn pyPunctuation ("cC3efghijaaa".toList) ∧
    dictGetD (password_complexity demoValidators) "min_symbol" 0 ≤
      countIn nonAsciiCharacters ("cC3efghijaaa".toList) :=
  c1_class_minimums_met 12 defaultChars demoValidators
    [0, 1, 2, 3, 4, 5, 6, 7, 8, 9] [] ("cC3efghijaaa".toList) rfl

/-- C8 counterexample: holding the SystemRandom stream fixed and varying
only the stream consumed by random.shuffle changes the output, showing
the final shuffle draws its entropy from the module-level Mersenne
Twister generator and not from the SystemRandom source, contrary to the
claim that every draw uses a cryptographically secure source. -/
theorem c8_counterexample :
    generate_password 12 defaultChars demoValidators
        [0, 1, 2, 3, 4, 5, 6, 7, 8, 9] [] =
      Except.ok ("cC3efghijaaa".toList) ∧
    generate_password 12 defaultChars demoValidators
        [0, 1, 2, 3, 4, 5, 6, 7, 8, 9] [1, 2, 3] =
      Except.ok ("aajefghia3Cc".toList) ∧
    ("cC3efghijaaa".toList) ≠ ("aajefghia3Cc".toList) :=
  ⟨rfl, rfl, by decide⟩

/-- C8 amended: the per-class selections and the uniform fill draw from
the SystemRandom stream, while the final shuffle draws from the separate
module-level random.shuffle generator (a Mersenne Twister, not a
cryptographically secure source); generate_password has no side effects
beyond consuming the two streams, and the shuffle stream affects only the
order of the characters, never their multiset. -/
theorem c8_shuffle_source (L : Nat) (chars : List Char)
    (V : List ValidatorEntry) (sys mt1 mt2 : List Nat) (pw1 pw2 : List Char)
    (h1 : generate_password L chars V sys mt1 = Except.ok pw1)
    (h2 : generate_password L chars V sys mt2 = Except.ok pw2) :
    List.Perm pw1 pw2 := by
  obtain ⟨pw2b, h2b, hperm⟩ := generate_password_mt_det h1 mt2
  rw [h2] at h2b
  injection h2b with he
  rw [← he] at hperm
  exact hperm

/-- C8 witness: the two concrete outputs of the counterexample runs are
permutations of one another. -/
theorem c8_witness :
    List.Perm ("cC3efghijaaa".toList) ("aajefghia3Cc".toList) :=
  c8_shuffle_source 12 defaultChars demoValidators
    [0, 1, 2, 3, 4, 5, 6, 7, 8, 9] [] [1, 2, 3]
    ("cC3efghijaaa".toList) ("aajefghia3Cc".toList) rfl rfl

/-- C9: when every merged per-class minimum is at most the size of its
pool the per-class loop always succeeds and, because each drawn character
is removed from its pool, the characters contributed for a single class
are pairwise distinct; when some minimum exceeds its pool size,
generate_password fails. -/
theorem c9_pool_safety (V : List ValidatorEntry) (sys : List Nat) :
    ((∀ rp ∈ passwordRules,
        dictGetD (password_complexity V) rp.1 0 ≤ rp.2.length) →
      ∃ draws s1,
        classPhase (password_complexity V) passwordRules sys =
          Except.ok (draws, s1) ∧
        ∀ d ∈ draws, d.Nodup) ∧
    ((∃ rp ∈ passwordRules,
        rp.2.length < dictGetD (password_complexity V) rp.1 0) →
      ∀ L chars mt, ∃ e,
        generate_password L chars V sys mt = Except.error e) := by
  constructor
  · intro hle
    obtain ⟨out, hcp⟩ := classPhase_ok_of_le sys hle
    obtain ⟨draws, s1⟩ := out
    refine ⟨draws, s1, hcp, ?_⟩
    intro d hd
    obtain ⟨rp, hrp, hR⟩ := forall2_mem_right (classPhase_ok hcp) d hd
    exact hR.2.2 (pools_nodup rp hrp)
  · intro hex L chars mt
    by_cases hL : L < 8
    · refine ⟨"ValueError: password must be at least 8 characters", ?_⟩
      simp [generate_password, hL]
    · cases hm : dictGet (password_complexity V) "min_length" with
      | none =>
        refine ⟨"TypeError: max not supported between int and NoneType", ?_⟩
        simp [generate_password, hL, hm]
      | some m =>
        obtain ⟨e, hcp⟩ := classPhase_err_of_exists sys hex
        refine ⟨e, ?_⟩
        simp [generate_password, hL, hm, hcp]

/-- C9 witness: the demo policy (all minimums within pool sizes) gives a
successful class phase with pairwise-distinct per-class draws, and a
policy demanding 27 lowercase characters makes generate_password fail. -/
theorem c9_witness :
    (∃ draws s1,
      classPhase (password_complexity demoValidators) passwordRules
          [0, 1, 2, 3, 4, 5, 6, 7, 8, 9] =
        Except.ok (draws, s1) ∧
      ∀ d ∈ draws, d.Nodup) ∧
    (∃ e, generate_password 12 defaultChars overdrawnValidators [] [] =
      Except.error e) :=
  ⟨(c9_pool_safety demoValidators [0, 1, 2, 3, 4, 5, 6, 7, 8, 9]).1
      (by decide),
   (c9_pool_safety overdrawnValidators []).2 (by decide) 12 defaultChars []⟩

end EdxUserAuthn
